import Mathlib

set_option maxHeartbeats 1000000

namespace TasteTrove

/- Data model, following prisma/schema.prisma: quantities are Int, product and
   user identifiers are String, an order status is one of four enum values. -/

/-- OrderStatus enum of the Prisma schema. -/
inductive OrderStatus
  | paymentInitiated
  | paymentSucceeded
  | shipped
  | delivered
deriving DecidableEq

/-- OrderItem row: snapshot of a purchased product and quantity. -/
structure OrderItem where
  productId : String
  productQuantity : Int
deriving DecidableEq

/-- Order row: unique stripePaymentIntentId, optional owning user (guest checkout),
item snapshots and a status. -/
structure Order where
  stripePaymentIntentId : String
  userId : Option String
  items : List OrderItem
  orderStatus : OrderStatus
deriving DecidableEq

/-- CartItem row as stored in a cart: (productId, productQuantity). -/
structure CartItem where
  productId : String
  productQuantity : Int
deriving DecidableEq

/- ------------- Client-side cart (src/client/src/hooks/useCart/useCartFunctions.ts) ------------- -/

/-- Client-side cart item shape, from useCartTypes: (productId, productQuantity). -/
structure IndividualCartItem where
  productId : String
  productQuantity : Int
deriving DecidableEq

/-- First index in the cart whose productId equals the given id; JS findIndex,
with the -1 result embedded as none. -/
def findIndexById : List IndividualCartItem → String → Option Nat
  | [], _ => none
  | c :: rest, pid =>
    if c.productId = pid then some 0
    else (findIndexById rest pid).map (fun i => i + 1)

/-- updateLocalCart of useCartFunctions.ts: on an empty cart with new quantity 0
return the cart unchanged; on new quantity 0 filter out every entry with the
edited id; otherwise replace the first entry with the edited id (JS cart.with)
or append a fresh entry when none exists. -/
def updateLocalCart (cart : List IndividualCartItem) (itemToEditId : String)
    (newQuantity : Int) : List IndividualCartItem :=
  if cart.length = 0 ∧ newQuantity = 0 then cart
  else if newQuantity = 0 then
    cart.filter (fun cartItem => cartItem.productId ≠ itemToEditId)
  else
    match findIndexById cart itemToEditId with
    | some i => cart.set i ⟨itemToEditId, newQuantity⟩
    | none => cart ++ [⟨itemToEditId, newQuantity⟩]

/-- Membership of the edited entry in the replace-or-append combination. -/
theorem findIndexById_set_mem (cart : List IndividualCartItem) (pid : String) (q : Int) :
    (⟨pid, q⟩ : IndividualCartItem) ∈
      (match findIndexById cart pid with
       | some i => cart.set i (IndividualCartItem.mk pid q)
       | none => cart ++ [IndividualCartItem.mk pid q]) := by
  induction cart with
  | nil => simp [findIndexById]
  | cons c rest ih =>
    by_cases h : c.productId = pid
    · simp [findIndexById, h]
    · simp only [findIndexById, if_neg h]
      cases hfind : findIndexById rest pid with
      | none =>
        simp only [hfind] at ih
        simp [hfind, ih]
      | some i =>
        simp only [hfind] at ih
        simp [hfind, List.set_cons_succ, ih]

/-- Entries for product ids other than the edited one are untouched by the
replace-or-append combination. -/
theorem findIndexById_set_filter (cart : List IndividualCartItem) (pid : String) (q : Int)
    (p : String) (hp : p ≠ pid) :
    (match findIndexById cart pid with
     | some i => cart.set i (IndividualCartItem.mk pid q)
     | none => cart ++ [IndividualCartItem.mk pid q]).filter (fun c => c.productId = p) =
      cart.filter (fun c => c.productId = p) := by
  induction cart with
  | nil => simp [findIndexById, List.filter_cons, hp.symm]
  | cons c rest ih =>
    by_cases h : c.productId = pid
    · have hcp : ¬ (c.productId = p) := by
        rw [h]; exact fun hh => hp hh.symm
      simp [findIndexById, h, List.filter_cons, hcp, hp.symm]
    · simp only [findIndexById, if_neg h]
      cases hfind : findIndexById rest pid with
      | none =>
        simp [hfind, List.filter_append, List.filter_cons, hp.symm]
      | some i =>
        simp only [hfind] at ih
        simp [hfind, List.set_cons_succ, List.filter_cons, ih]

/-- C10: updateLocalCart with quantity 0 removes every entry with the edited
productId and leaves entries of every other productId unchanged; with a positive
quantity the result contains the entry (id, newQuantity), entries of other
productIds are unchanged, and when no entry with the edited id exists the new
entry is appended at the end. -/
theorem updateLocalCart_spec (cart : List IndividualCartItem) (id : String) (q : Int) :
    (∀ x ∈ updateLocalCart cart id 0, x.productId ≠ id)
    ∧ (∀ p, p ≠ id →
        (updateLocalCart cart id 0).filter (fun c => c.productId = p) =
          cart.filter (fun c => c.productId = p))
    ∧ (0 < q →
        IndividualCartItem.mk id q ∈ updateLocalCart cart id q
        ∧ (∀ p, p ≠ id →
            (updateLocalCart cart id q).filter (fun c => c.productId = p) =
              cart.filter (fun c => c.productId = p))
        ∧ (findIndexById cart id = none →
            updateLocalCart cart id q = cart ++ [IndividualCartItem.mk id q])) := by
  refine ⟨?_, ?_, fun hq => ?_⟩
  · intro x hx
    by_cases hc : cart.length = 0
    · rcases List.length_eq_zero.mp hc with rfl
      simp [updateLocalCart] at hx
    · have hcond : ¬ (cart.length = 0 ∧ (0 : Int) = 0) := fun hand => hc hand.1
      rw [updateLocalCart, if_neg hcond, if_pos rfl] at hx
      exact of_decide_eq_true (List.mem_filter.mp hx).2
  · intro p hp
    by_cases hc : cart.length = 0
    · rcases List.length_eq_zero.mp hc with rfl
      simp [updateLocalCart]
    · have hcond : ¬ (cart.length = 0 ∧ (0 : Int) = 0) := fun hand => hc hand.1
      rw [updateLocalCart, if_neg hcond, if_pos rfl, List.filter_filter]
      refine List.filter_congr fun c _ => ?_
      by_cases hcp : c.productId = p
      · have hcid : c.productId ≠ id := fun h2 => hp (by rw [← hcp, h2])
        simp [hcp, hcid, hp]
      · simp [hcp]
  have hq0 : ¬ q = 0 := by omega
  have hcond : ¬ (cart.length = 0 ∧ q = 0) := fun hand => hq0 hand.2
  refine ⟨?_, fun p hp => ?_, fun hnone => ?_⟩
  · rw [updateLocalCart, if_neg hcond, if_neg hq0]
    exact findIndexById_set_mem cart id q
  · rw [updateLocalCart, if_neg hcond, if_neg hq0]
    exact findIndexById_set_filter cart id q p hp
  · rw [updateLocalCart, if_neg hcond, if_neg hq0, hnone]

/-- Witness for C10 at a concrete cart. -/
theorem updateLocalCart_spec_witness :
    (∀ x ∈ updateLocalCart
        [IndividualCartItem.mk "A" 2, IndividualCartItem.mk "B" 1] "A" 0,
      x.productId ≠ "A")
    ∧ IndividualCartItem.mk "C" 3 ∈ updateLocalCart
        [IndividualCartItem.mk "A" 2, IndividualCartItem.mk "B" 1] "C" 3 := by
  constructor
  · exact (updateLocalCart_spec
      [IndividualCartItem.mk "A" 2, IndividualCartItem.mk "B" 1] "A" 0).1
  · exact ((updateLocalCart_spec
      [IndividualCartItem.mk "A" 2, IndividualCartItem.mk "B" 1] "C" 3).2.2
      (by norm_num)).1

/- ------------- Server database state and Prisma-style operations ------------- -/

/-- Database state touched by the webhook handler: the order table and the carts,
keyed by the owning userId (Cart is one-to-one with User in the schema). -/
structure Db where
  orders : List Order
  carts : List (String × List CartItem)
deriving DecidableEq

/-- prisma.order.update on the unique key stripePaymentIntentId: set the status
of the first matching order and return the updated row together with the updated
table; none models the P2025 record-not-found rejection that prisma update
throws when no row matches the unique where clause. -/
def setStatusByPI : List Order → String → OrderStatus → Option (Order × List Order)
  | [], _, _ => none
  | o :: rest, pi, st =>
    if o.stripePaymentIntentId = pi then
      some ({o with orderStatus := st}, {o with orderStatus := st} :: rest)
    else
      match setStatusByPI rest pi st with
      | none => none
      | some (u, rest2) => some (u, o :: rest2)

/-- prisma.user.update with the nested cart items deleteMany filter: remove from
the cart of the given user every item whose productId is in the given list.
Matching no item is a no-op; a missing user (or cart) record makes the nested
update throw, modelled as none. -/
def cartDeleteMany : List (String × List CartItem) → String → List String →
    Option (List (String × List CartItem))
  | [], _, _ => none
  | (u, its) :: rest, uid, pids =>
    if u = uid then
      some ((u, its.filter (fun it => decide (it.productId ∉ pids))) :: rest)
    else
      match cartDeleteMany rest uid pids with
      | none => none
      | some rest2 => some ((u, its) :: rest2)

/-- Cart of a given user in the carts table (first match on the unique userId). -/
def lookupCart : List (String × List CartItem) → String → Option (List CartItem)
  | [], _ => none
  | (u, its) :: rest, uid => if u = uid then some its else lookupCart rest uid

/-- Webhook events as the handler distinguishes them: a payment_intent.succeeded
event carrying the paymentIntent id, or any other event type. -/
inductive StripeEvent
  | paymentIntentSucceeded (paymentIntentId : String)
  | other (eventType : String)
deriving DecidableEq

/-- Responses the handler can produce: received is res.json with received true,
webhookError is the 400 Webhook Error response on signature failure, orderNotFound
is the 404 with error Order not found, internalError is next(err), the generic
error middleware. -/
inductive WebhookResponse
  | received
  | webhookError
  | orderNotFound
  | internalError
deriving DecidableEq

/-- JS truthiness of the row returned by a successful prisma.order.update: a
returned record object is never falsy, so the handler test on it is always false. -/
def orderIsFalsy (_ : Order) : Bool := false

/-- handleStripeWebhook of paymentController.ts over the Db state: verify the
signature (400 on failure); on payment_intent.succeeded update the order by its
payment-intent id (the thrown P2025 is caught by the surrounding try and handed
to next), then, when the order has an owning user, deleteMany the ordered
productIds from that user cart; the not-found 404 branch tests the returned row
for falsiness after those writes; unrecognized event types are acknowledged. -/
def handleStripeWebhook (db : Db) (event : StripeEvent) (signatureValid : Bool) :
    WebhookResponse × Db :=
  if signatureValid then
    match event with
    | .paymentIntentSucceeded pi =>
      match setStatusByPI db.orders pi .paymentSucceeded with
      | none => (.internalError, db)
      | some (order, orders2) =>
        match order.userId with
        | some uid =>
          match cartDeleteMany db.carts uid (order.items.map (fun it => it.productId)) with
          | none => (.internalError, ⟨orders2, db.carts⟩)
          | some carts2 =>
            if orderIsFalsy order then (.orderNotFound, ⟨orders2, carts2⟩)
            else (.received, ⟨orders2, carts2⟩)
        | none =>
          if orderIsFalsy order then (.orderNotFound, ⟨orders2, db.carts⟩)
          else (.received, ⟨orders2, db.carts⟩)
    | .other _ => (.received, db)
  else (.webhookError, db)

/-- C7: a webhook request whose signature verification fails is answered with the
400 webhook-error response and the database is left untouched: no order status
change and no cart mutation. -/
theorem invalidSignature_rejected_without_side_effects (db : Db) (event : StripeEvent) :
    handleStripeWebhook db event false = (.webhookError, db) := by
  rfl

/-- When no order carries the given payment-intent id, the conditional update
rejects (prisma P2025). -/
theorem setStatusByPI_none_of_not_found (l : List Order) (pi : String) (st : OrderStatus)
    (h : ∀ o ∈ l, o.stripePaymentIntentId ≠ pi) : setStatusByPI l pi st = none := by
  induction l with
  | nil => rfl
  | cons o rest ih =>
    have ho : o.stripePaymentIntentId ≠ pi := h o (by simp)
    simp only [setStatusByPI, if_neg ho]
    rw [ih fun x hx => h x (by simp [hx])]

/-- C1 (divergence record): delivered a payment_intent.succeeded event whose
paymentIntent id matches no stored order, the handler does not produce the 404
Order-not-found response: the conditional update rejects and the catch block
hands the error to the generic error middleware, while the database is left
unchanged. Evaluated at the failing input pi_999 against a store holding only
an order for pi_123. -/
theorem unknownPaymentIntent_forwards_to_error_middleware :
    handleStripeWebhook
        ⟨[Order.mk "pi_123" (some "U") [OrderItem.mk "P1" 1] .paymentInitiated],
         [("U", [CartItem.mk "P1" 2])]⟩
        (.paymentIntentSucceeded "pi_999") true =
      (.internalError,
        ⟨[Order.mk "pi_123" (some "U") [OrderItem.mk "P1" 1] .paymentInitiated],
         [("U", [CartItem.mk "P1" 2])]⟩)
    ∧ WebhookResponse.internalError ≠ WebhookResponse.orderNotFound := by
  exact ⟨rfl, by decide⟩

/-- C5 counterexample: at the same unknown-payment-intent input, the handler does
not acknowledge receipt: the first component of its result is not the received
acknowledgment. -/
theorem unknownPaymentIntent_not_acknowledged :
    (handleStripeWebhook ⟨[], []⟩ (.paymentIntentSucceeded "pi_999") true).1 ≠
      WebhookResponse.received := by
  decide

/-- C5 amended: when the order lookup fails (no stored order has the delivered
payment-intent id), the handler does not acknowledge receipt; it forwards the
error to the generic error middleware and performs no order or cart mutation. -/
theorem lookupFailure_forwards_error_without_mutation (db : Db) (pi : String)
    (h : ∀ o ∈ db.orders, o.stripePaymentIntentId ≠ pi) :
    handleStripeWebhook db (.paymentIntentSucceeded pi) true = (.internalError, db)
    ∧ WebhookResponse.internalError ≠ WebhookResponse.received := by
  refine ⟨?_, by decide⟩
  have hnone := setStatusByPI_none_of_not_found db.orders pi .paymentSucceeded h
  simp [handleStripeWebhook, hnone]

/-- Witness for the amended C5 at a store holding one unrelated order. -/
theorem lookupFailure_forwards_error_without_mutation_witness :
    handleStripeWebhook ⟨[Order.mk "pi_1" none [] .paymentInitiated], []⟩
        (.paymentIntentSucceeded "pi_999") true =
      (.internalError, ⟨[Order.mk "pi_1" none [] .paymentInitiated], []⟩) :=
  (lookupFailure_forwards_error_without_mutation
    ⟨[Order.mk "pi_1" none [] .paymentInitiated], []⟩ "pi_999" (by decide)).1

/-- Position of a status along the paymentInitiated, paymentSucceeded, shipped,
delivered chain. -/
def statusRank : OrderStatus → Nat
  | .paymentInitiated => 0
  | .paymentSucceeded => 1
  | .shipped => 2
  | .delivered => 3

/-- C6 counterexample: a payment_intent.succeeded event delivered for an order
already shipped moves its status back to paymentSucceeded, a strictly backward
move along the status chain. -/
theorem succeededEvent_moves_shipped_order_backward :
    (handleStripeWebhook ⟨[Order.mk "pi_1" none [] .shipped], []⟩
        (.paymentIntentSucceeded "pi_1") true).2.orders.map (fun o => o.orderStatus) =
      [OrderStatus.paymentSucceeded]
    ∧ statusRank .paymentSucceeded < statusRank .shipped := by
  decide

/-- The conditional status update rewrites each order status either to itself or
to the written status. -/
theorem setStatusByPI_forall2 (l : List Order) (pi : String) (st : OrderStatus)
    (o : Order) (l2 : List Order) (h : setStatusByPI l pi st = some (o, l2)) :
    List.Forall₂ (fun a b => b.orderStatus = a.orderStatus ∨ b.orderStatus = st) l l2 := by
  induction l generalizing l2 with
  | nil => simp [setStatusByPI] at h
  | cons a rest ih =>
    by_cases ha : a.stripePaymentIntentId = pi
    · simp only [setStatusByPI, if_pos ha, Option.some.injEq, Prod.mk.injEq] at h
      rw [← h.2]
      exact List.Forall₂.cons (Or.inr rfl)
        (List.forall₂_same.mpr fun x _ => Or.inl rfl)
    · simp only [setStatusByPI, if_neg ha] at h
      cases hrec : setStatusByPI rest pi st with
      | none => rw [hrec] at h; simp at h
      | some pr =>
        rw [hrec] at h
        obtain ⟨u, rest2⟩ := pr
        simp only [Option.some.injEq, Prod.mk.injEq] at h
        rw [← h.2]
        exact List.Forall₂.cons (Or.inl rfl) (ih rest2 (by rw [hrec, h.1]))

/-- C6 amended: no operation of the handler ever writes a status other than
paymentSucceeded: across any webhook delivery each stored order keeps its status
or has it set to paymentSucceeded, so no order is ever moved back to
paymentInitiated; an order already shipped or delivered, however, can be pulled
back to paymentSucceeded by a late succeeded-payment event. -/
theorem orderStatus_only_written_to_paymentSucceeded (db : Db) (event : StripeEvent)
    (signatureValid : Bool) :
    List.Forall₂
      (fun a b => b.orderStatus = a.orderStatus ∨ b.orderStatus = .paymentSucceeded)
      db.orders (handleStripeWebhook db event signatureValid).2.orders := by
  have hrefl : List.Forall₂
      (fun a b : Order => b.orderStatus = a.orderStatus ∨ b.orderStatus = .paymentSucceeded)
      db.orders db.orders :=
    List.forall₂_same.mpr fun x _ => Or.inl rfl
  cases signatureValid with
  | false => exact hrefl
  | true =>
    cases event with
    | other t => exact hrefl
    | paymentIntentSucceeded pi =>
      cases hset : setStatusByPI db.orders pi .paymentSucceeded with
      | none =>
        simp only [handleStripeWebhook, hset, if_true]
        exact hrefl
      | some pr =>
        obtain ⟨o, orders2⟩ := pr
        have hf := setStatusByPI_forall2 db.orders pi .paymentSucceeded o orders2 hset
        cases huser : o.userId with
        | none => simpa [handleStripeWebhook, hset, huser, orderIsFalsy] using hf
        | some uid =>
          cases hdel : cartDeleteMany db.carts uid (o.items.map (fun it => it.productId)) with
          | none => simpa [handleStripeWebhook, hset, huser, hdel] using hf
          | some carts2 => simpa [handleStripeWebhook, hset, huser, hdel, orderIsFalsy] using hf

/-- Writing the same status again through the conditional update finds the same
order and leaves the table exactly as it was. -/
theorem setStatusByPI_idem (l : List Order) (pi : String) (st : OrderStatus)
    (o : Order) (l2 : List Order) (h : setStatusByPI l pi st = some (o, l2)) :
    setStatusByPI l2 pi st = some (o, l2) := by
  induction l generalizing l2 with
  | nil => simp [setStatusByPI] at h
  | cons a rest ih =>
    by_cases ha : a.stripePaymentIntentId = pi
    · simp only [setStatusByPI, if_pos ha, Option.some.injEq, Prod.mk.injEq] at h
      obtain ⟨ho, hl⟩ := h
      subst ho; subst hl
      simp [setStatusByPI, ha]
    · simp only [setStatusByPI, if_neg ha] at h
      cases hrec : setStatusByPI rest pi st with
      | none => rw [hrec] at h; simp at h
      | some pr =>
        obtain ⟨u, rest2⟩ := pr
        rw [hrec] at h
        simp only [Option.some.injEq, Prod.mk.injEq] at h
        obtain ⟨ho, hl⟩ := h
        subst ho; subst hl
        simp [setStatusByPI, ha, ih rest2 hrec]

/-- Deleting the same product ids from a cart twice is the same as once: the
deleteMany filter is idempotent and the second pass finds the same cart row. -/
theorem cartDeleteMany_idem (cs : List (String × List CartItem)) (uid : String)
    (pids : List String) (cs2 : List (String × List CartItem))
    (h : cartDeleteMany cs uid pids = some cs2) :
    cartDeleteMany cs2 uid pids = some cs2 := by
  induction cs generalizing cs2 with
  | nil => simp [cartDeleteMany] at h
  | cons hd rest ih =>
    obtain ⟨u, its⟩ := hd
    by_cases hu : u = uid
    · simp only [cartDeleteMany, if_pos hu, Option.some.injEq] at h
      subst h
      simp only [cartDeleteMany, if_pos hu, Option.some.injEq]
      rw [List.filter_filter]
      refine congrArg (fun l => (u, l) :: rest) ?_
      exact List.filter_congr fun x _ => Bool.and_self _
    · simp only [cartDeleteMany, if_neg hu] at h
      cases hrec : cartDeleteMany rest uid pids with
      | none => rw [hrec] at h; simp at h
      | some rest2 =>
        rw [hrec] at h
        simp only [Option.some.injEq] at h
        subst h
        simp [cartDeleteMany, hu, ih rest2 hrec]

/-- When the user cart row exists, the nested deleteMany succeeds and the user
final cart is the old cart filtered down to the items whose productId is not in
the deleted list. -/
theorem cartDeleteMany_of_lookup (cs : List (String × List CartItem)) (uid : String)
    (pids : List String) (items : List CartItem) (h : lookupCart cs uid = some items) :
    ∃ cs2, cartDeleteMany cs uid pids = some cs2 ∧
      lookupCart cs2 uid = some (items.filter (fun it => decide (it.productId ∉ pids))) := by
  induction cs with
  | nil => simp [lookupCart] at h
  | cons hd rest ih =>
    obtain ⟨u, its⟩ := hd
    by_cases hu : u = uid
    · simp only [lookupCart, if_pos hu, Option.some.injEq] at h
      subst h
      exact ⟨(u, its.filter (fun it => decide (it.productId ∉ pids))) :: rest,
        by simp [cartDeleteMany, hu], by simp [lookupCart, hu]⟩
    · simp only [lookupCart, if_neg hu] at h
      obtain ⟨rest2, hdel, hlook⟩ := ih h
      exact ⟨(u, its) :: rest2, by simp [cartDeleteMany, hu, hdel],
        by simp [lookupCart, hu, hlook]⟩

/-- C2: once a payment_intent.succeeded delivery has been processed normally,
processing the same delivery again returns the received acknowledgment (it does
not error) and leaves both the order table and every cart exactly as after the
first processing: the second status write rewrites the same value and the second
deleteMany removes already-absent items, a no-op. -/
theorem paymentSucceeded_idempotent (db : Db) (pi : String)
    (h : (handleStripeWebhook db (.paymentIntentSucceeded pi) true).1 = .received) :
    handleStripeWebhook (handleStripeWebhook db (.paymentIntentSucceeded pi) true).2
        (.paymentIntentSucceeded pi) true
      = (.received, (handleStripeWebhook db (.paymentIntentSucceeded pi) true).2) := by
  cases hset : setStatusByPI db.orders pi .paymentSucceeded with
  | none => simp [handleStripeWebhook, hset] at h
  | some pr =>
    obtain ⟨o, orders2⟩ := pr
    have hidem := setStatusByPI_idem db.orders pi .paymentSucceeded o orders2 hset
    cases huser : o.userId with
    | none =>
      have hres : handleStripeWebhook db (.paymentIntentSucceeded pi) true =
          (.received, ⟨orders2, db.carts⟩) := by
        simp [handleStripeWebhook, hset, huser, orderIsFalsy]
      rw [hres]
      simp [handleStripeWebhook, hidem, huser, orderIsFalsy]
    | some uid =>
      cases hdel : cartDeleteMany db.carts uid (o.items.map (fun it => it.productId)) with
      | none => simp [handleStripeWebhook, hset, huser, hdel] at h
      | some carts2 =>
        have hdel2 := cartDeleteMany_idem db.carts uid
          (o.items.map (fun it => it.productId)) carts2 hdel
        have hres : handleStripeWebhook db (.paymentIntentSucceeded pi) true =
            (.received, ⟨orders2, carts2⟩) := by
          simp [handleStripeWebhook, hset, huser, hdel, orderIsFalsy]
        rw [hres]
        simp [handleStripeWebhook, hidem, huser, hdel2, orderIsFalsy]

/-- Witness for C2: a store with one paid order owned by user U, processed twice. -/
theorem paymentSucceeded_idempotent_witness :
    handleStripeWebhook
        (handleStripeWebhook
          ⟨[Order.mk "pi_1" (some "U") [OrderItem.mk "P1" 1] .paymentInitiated],
           [("U", [CartItem.mk "P1" 3, CartItem.mk "P2" 2])]⟩
          (.paymentIntentSucceeded "pi_1") true).2
        (.paymentIntentSucceeded "pi_1") true
      = (.received,
        (handleStripeWebhook
          ⟨[Order.mk "pi_1" (some "U") [OrderItem.mk "P1" 1] .paymentInitiated],
           [("U", [CartItem.mk "P1" 3, CartItem.mk "P2" 2])]⟩
          (.paymentIntentSucceeded "pi_1") true).2) :=
  paymentSucceeded_idempotent
    ⟨[Order.mk "pi_1" (some "U") [OrderItem.mk "P1" 1] .paymentInitiated],
     [("U", [CartItem.mk "P1" 3, CartItem.mk "P2" 2])]⟩
    "pi_1" (by decide)

/-- C4: when the succeeded-payment transition finds the order, then if the order
has an owning user whose cart row exists, that user final cart is the old cart
with every item whose productId matches some OrderItem of the order removed,
independently of the cart quantity; and if the order has no owning user the cart
table is left entirely untouched. -/
theorem paymentSucceeded_cart_removal (db : Db) (pi : String) (o : Order)
    (orders2 : List Order)
    (hset : setStatusByPI db.orders pi .paymentSucceeded = some (o, orders2)) :
    (∀ uid items, o.userId = some uid → lookupCart db.carts uid = some items →
      lookupCart (handleStripeWebhook db (.paymentIntentSucceeded pi) true).2.carts uid =
        some (items.filter (fun it =>
          decide (it.productId ∉ o.items.map (fun oi => oi.productId)))))
    ∧ (o.userId = none →
        (handleStripeWebhook db (.paymentIntentSucceeded pi) true).2.carts = db.carts) := by
  constructor
  · intro uid items huser hlook
    obtain ⟨carts2, hdel, hlook2⟩ :=
      cartDeleteMany_of_lookup db.carts uid (o.items.map (fun oi => oi.productId)) items hlook
    simp only [handleStripeWebhook, hset, huser, hdel, orderIsFalsy, if_true,
      Bool.false_eq_true, if_false]
    exact hlook2
  · intro huser
    simp [handleStripeWebhook, hset, huser, orderIsFalsy]

/-- Witness for C4: an order for P1 and P2 owned by U removes exactly those two
products from the U cart, whatever their cart quantities. -/
theorem paymentSucceeded_cart_removal_witness :
    lookupCart
        (handleStripeWebhook
          ⟨[Order.mk "pi_1" (some "U")
              [OrderItem.mk "P1" 1, OrderItem.mk "P2" 2] .paymentInitiated],
           [("U", [CartItem.mk "P1" 5, CartItem.mk "P2" 1, CartItem.mk "P3" 2])]⟩
          (.paymentIntentSucceeded "pi_1") true).2.carts "U"
      = some [CartItem.mk "P3" 2] := by
  have h := (paymentSucceeded_cart_removal
    ⟨[Order.mk "pi_1" (some "U")
        [OrderItem.mk "P1" 1, OrderItem.mk "P2" 2] .paymentInitiated],
     [("U", [CartItem.mk "P1" 5, CartItem.mk "P2" 1, CartItem.mk "P3" 2])]⟩
    "pi_1"
    (Order.mk "pi_1" (some "U")
      [OrderItem.mk "P1" 1, OrderItem.mk "P2" 2] .paymentSucceeded)
    [Order.mk "pi_1" (some "U")
      [OrderItem.mk "P1" 1, OrderItem.mk "P2" 2] .paymentSucceeded]
    (by decide)).1 "U"
    [CartItem.mk "P1" 5, CartItem.mk "P2" 1, CartItem.mk "P3" 2] rfl (by decide)
  exact h.trans (by decide)

/- ------------- Cart reconciler ------------- -/

/-- Desired cart entry as the reconcile contract names it: (productId, quantity). -/
structure DesiredItem where
  productId : String
  quantity : Int
deriving DecidableEq

/-- Quantity stored for a product in the current cart map (unique keys, first
match). -/
def lookupQty : List (String × Int) → String → Option Int
  | [], _ => none
  | (p, q) :: rest, pid => if p = pid then some q else lookupQty rest pid

/-- Operation batches produced by the reconciler. -/
structure ActionArrays where
  creates : List DesiredItem
  updates : List DesiredItem
  deletes : List String
deriving DecidableEq

/-- Modelled from the spec: one classification step of getActionArrays
(server/src/utils/cartUtil.ts is absent from the sources; only its caller
updateCartItem appears). A desired entry absent from the current map is a create
when its quantity is nonzero and a no-op at quantity 0 (the ambiguity the spec
resolves explicitly as a no-op); a present entry with target quantity 0 is
routed to deletes, one with an unchanged quantity is a no-op, and one with a
differing nonzero quantity is an update. -/
def classifyStep (current : List (String × Int)) (acc : ActionArrays)
    (it : DesiredItem) : ActionArrays :=
  match lookupQty current it.productId with
  | none =>
    if it.quantity = 0 then acc
    else {acc with creates := acc.creates ++ [it]}
  | some q =>
    if it.quantity = 0 then {acc with deletes := acc.deletes ++ [it.productId]}
    else if it.quantity = q then acc
    else {acc with updates := acc.updates ++ [it]}

/-- Modelled from the spec: getActionArrays folds the classification step over
the desired list, starting from three empty batches. -/
def getActionArrays (desired : List DesiredItem) (current : List (String × Int)) :
    ActionArrays :=
  desired.foldl (classifyStep current) ⟨[], [], []⟩

/-- Boolean test: the entry is classified as a create. -/
def isCreate (current : List (String × Int)) (it : DesiredItem) : Bool :=
  match lookupQty current it.productId with
  | none => decide (it.quantity ≠ 0)
  | some _ => false

/-- Boolean test: the entry is classified as an update. -/
def isUpdate (current : List (String × Int)) (it : DesiredItem) : Bool :=
  match lookupQty current it.productId with
  | none => false
  | some q => decide (it.quantity ≠ 0) && decide (it.quantity ≠ q)

/-- Boolean test: the entry is routed to deletes. -/
def isDelete (current : List (String × Int)) (it : DesiredItem) : Bool :=
  match lookupQty current it.productId with
  | none => false
  | some _ => decide (it.quantity = 0)

/-- The fold underlying getActionArrays appends, to whatever batches it starts
from, exactly the entries each boolean classifier selects. -/
theorem getActionArrays_foldl (current : List (String × Int)) (D : List DesiredItem) :
    ∀ acc : ActionArrays,
      D.foldl (classifyStep current) acc =
        ⟨acc.creates ++ D.filter (isCreate current),
         acc.updates ++ D.filter (isUpdate current),
         acc.deletes ++ (D.filter (isDelete current)).map (fun it => it.productId)⟩ := by
  induction D with
  | nil => intro acc; cases acc; simp
  | cons d rest ih =>
    intro acc
    rw [List.foldl_cons, ih]
    cases hlq : lookupQty current d.productId with
    | none =>
      by_cases h0 : d.quantity = 0
      · simp [classifyStep, hlq, h0, isCreate, isUpdate, isDelete, List.filter_cons]
      · simp [classifyStep, hlq, h0, isCreate, isUpdate, isDelete, List.filter_cons]
    | some q =>
      by_cases h0 : d.quantity = 0
      · simp [classifyStep, hlq, h0, isCreate, isUpdate, isDelete, List.filter_cons]
      · by_cases heq : d.quantity = q
        · have hq0 : ¬ q = 0 := heq ▸ h0
          simp [classifyStep, hlq, h0, heq, hq0, isCreate, isUpdate, isDelete,
            List.filter_cons]
        · simp [classifyStep, hlq, h0, heq, isCreate, isUpdate, isDelete, List.filter_cons]

/-- The three batches are the desired entries selected by the three classifiers. -/
theorem getActionArrays_eq (desired : List DesiredItem) (current : List (String × Int)) :
    getActionArrays desired current =
      ⟨desired.filter (isCreate current),
       desired.filter (isUpdate current),
       (desired.filter (isDelete current)).map (fun it => it.productId)⟩ := by
  rw [getActionArrays, getActionArrays_foldl]
  simp

/-- C3 counterexample: a desired entry with quantity 0 whose productId is absent
from the current cart is a no-op: it is not routed to deletes (nor anywhere
else), against the claim that every entry with target quantity 0 goes to
deletes. -/
theorem absentZeroQuantityEntry_is_noop :
    getActionArrays [DesiredItem.mk "A" 0] [] = ActionArrays.mk [] [] []
    ∧ "A" ∉ (getActionArrays [DesiredItem.mk "A" 0] []).deletes := by
  decide

/-- C3 amended: over a desired list without repeated productIds, each entry is
classified as the spec describes, except that an entry with quantity 0 whose
productId is absent from the current cart is a no-op rather than a delete: an
absent productId with nonzero quantity goes to creates; a present productId with
target quantity 0 goes to deletes and never to updates or creates; a present
productId with a differing nonzero quantity goes to updates; a present productId
with an unchanged nonzero quantity produces no operation; and the concrete
example with current A:2 B:1 and desired A:0, C:3 yields deletes A, creates C:3
and no updates. -/
theorem getActionArrays_classification (D : List DesiredItem)
    (current : List (String × Int)) (hnd : (D.map (fun it => it.productId)).Nodup) :
    (∀ it ∈ D, lookupQty current it.productId = none → it.quantity ≠ 0 →
      it ∈ (getActionArrays D current).creates)
    ∧ (∀ it ∈ D, lookupQty current it.productId = none → it.quantity = 0 →
      it ∉ (getActionArrays D current).creates
      ∧ it ∉ (getActionArrays D current).updates
      ∧ it.productId ∉ (getActionArrays D current).deletes)
    ∧ (∀ it ∈ D, ∀ q : Int, lookupQty current it.productId = some q → it.quantity = 0 →
      it.productId ∈ (getActionArrays D current).deletes
      ∧ it ∉ (getActionArrays D current).updates
      ∧ it ∉ (getActionArrays D current).creates)
    ∧ (∀ it ∈ D, ∀ q : Int, lookupQty current it.productId = some q → it.quantity ≠ 0 →
      it.quantity ≠ q → it ∈ (getActionArrays D current).updates)
    ∧ (∀ it ∈ D, ∀ q : Int, lookupQty current it.productId = some q → q ≠ 0 →
      it.quantity = q →
      it ∉ (getActionArrays D current).creates
      ∧ it ∉ (getActionArrays D current).updates
      ∧ it.productId ∉ (getActionArrays D current).deletes)
    ∧ getActionArrays [DesiredItem.mk "A" 0, DesiredItem.mk "C" 3] [("A", 2), ("B", 1)]
      = ActionArrays.mk [DesiredItem.mk "C" 3] [] ["A"] := by
  rw [getActionArrays_eq]
  refine ⟨?_, ?_, ?_, ?_, ?_, by decide⟩
  · intro it hit hlq h0
    exact List.mem_filter.mpr ⟨hit, by simp [isCreate, hlq, h0]⟩
  · intro it hit hlq h0
    refine ⟨fun hmem => ?_, fun hmem => ?_, fun hmem => ?_⟩
    · have := (List.mem_filter.mp hmem).2
      simp [isCreate, hlq, h0] at this
    · have := (List.mem_filter.mp hmem).2
      simp [isUpdate, hlq] at this
    · obtain ⟨d, hd, hpid⟩ := List.mem_map.mp hmem
      have hdel := (List.mem_filter.mp hd).2
      rw [isDelete] at hdel
      rw [hpid, hlq] at hdel
      simp at hdel
  · intro it hit q hlq h0
    refine ⟨?_, fun hmem => ?_, fun hmem => ?_⟩
    · exact List.mem_map.mpr ⟨it, List.mem_filter.mpr ⟨hit, by simp [isDelete, hlq, h0]⟩, rfl⟩
    · have := (List.mem_filter.mp hmem).2
      simp [isUpdate, hlq, h0] at this
    · have := (List.mem_filter.mp hmem).2
      simp [isCreate, hlq] at this
  · intro it hit q hlq h0 hne
    exact List.mem_filter.mpr ⟨hit, by simp [isUpdate, hlq, h0, hne]⟩
  · intro it hit q hlq hq0 heq
    refine ⟨fun hmem => ?_, fun hmem => ?_, fun hmem => ?_⟩
    · have := (List.mem_filter.mp hmem).2
      simp [isCreate, hlq] at this
    · have := (List.mem_filter.mp hmem).2
      simp [isUpdate, hlq, heq] at this
    · obtain ⟨d, hd, hpid⟩ := List.mem_map.mp hmem
      have hdmem := (List.mem_filter.mp hd).1
      have hdel := (List.mem_filter.mp hd).2
      have hde : d = it := List.inj_on_of_nodup_map hnd hdmem hit hpid
      rw [hde] at hdel
      rw [isDelete, hlq] at hdel
      simp [heq, hq0] at hdel

/-- Witness for C3 at the spec example: A is routed to deletes because A is
present in the current cart with quantity 2 and the desired quantity is 0. -/
theorem getActionArrays_classification_witness :
    "A" ∈ (getActionArrays [DesiredItem.mk "A" 0, DesiredItem.mk "C" 3]
      [("A", 2), ("B", 1)]).deletes :=
  ((getActionArrays_classification [DesiredItem.mk "A" 0, DesiredItem.mk "C" 3]
      [("A", 2), ("B", 1)] (by decide)).2.2.1
    (DesiredItem.mk "A" 0) (by decide) 2 (by decide) rfl).1

/- Modelled from the spec: the batch appliers deleteCartItems, updateCartItems
and createCartItems (server/src/utils/cartUtil.ts, absent from the sources):
deletes remove the listed productIds, updates set the quantity of the listed
productIds, creates insert new rows. -/

/-- Modelled from the spec: deleteCartItems removes from the cart every row
whose productId is listed. -/
def applyDeletes (cart : List (String × Int)) (dels : List String) :
    List (String × Int) :=
  cart.filter (fun e => decide (e.1 ∉ dels))

/-- Modelled from the spec: one update sets the stored quantity of its
productId. -/
def applyUpdateOne (cart : List (String × Int)) (it : DesiredItem) :
    List (String × Int) :=
  cart.map (fun e => if e.1 = it.productId then (e.1, it.quantity) else e)

/-- Modelled from the spec: updateCartItems applies every update of the batch. -/
def applyUpdates (cart : List (String × Int)) (ups : List DesiredItem) :
    List (String × Int) :=
  ups.foldl applyUpdateOne cart

/-- Modelled from the spec: createCartItems inserts a new row per create. -/
def applyCreates (cart : List (String × Int)) (crs : List DesiredItem) :
    List (String × Int) :=
  cart ++ crs.map (fun it => (it.productId, it.quantity))

/-- The three batches applied to the cart (their relative order is irrelevant
for products no batch mentions). -/
def applyActions (cart : List (String × Int)) (a : ActionArrays) :
    List (String × Int) :=
  applyCreates (applyUpdates (applyDeletes cart a.deletes) a.updates) a.creates

/-- Filtering with a predicate that keeps every row keyed p does not change what
is stored for p. -/
theorem lookupQty_filter (cart : List (String × Int)) (f : String × Int → Bool)
    (p : String) (hf : ∀ b : Int, f (p, b) = true) :
    lookupQty (cart.filter f) p = lookupQty cart p := by
  induction cart with
  | nil => rfl
  | cons e rest ih =>
    obtain ⟨a, b⟩ := e
    by_cases ha : a = p
    · subst ha
      rw [List.filter_cons, if_pos (hf b)]
      simp [lookupQty]
    · rw [List.filter_cons]
      cases hfe : f (a, b) with
      | true => simp [lookupQty, ha, ih]
      | false => simp [lookupQty, ha, ih]

/-- Deleting other productIds does not change what is stored for p. -/
theorem lookupQty_applyDeletes (cart : List (String × Int)) (dels : List String)
    (p : String) (hp : p ∉ dels) :
    lookupQty (applyDeletes cart dels) p = lookupQty cart p :=
  lookupQty_filter cart _ p (fun b => by simp [hp])

/-- An update for another productId does not change what is stored for p. -/
theorem lookupQty_applyUpdateOne (cart : List (String × Int)) (it : DesiredItem)
    (p : String) (hp : it.productId ≠ p) :
    lookupQty (applyUpdateOne cart it) p = lookupQty cart p := by
  induction cart with
  | nil => rfl
  | cons e rest ih =>
    obtain ⟨a, b⟩ := e
    rw [applyUpdateOne, List.map_cons]
    rw [applyUpdateOne] at ih
    by_cases ha : a = it.productId
    · have hap : ¬ a = p := fun h => hp (ha ▸ h)
      rw [if_pos ha]
      simp only [lookupQty, if_neg hap]
      exact ih
    · rw [if_neg ha]
      by_cases hap : a = p
      · simp only [lookupQty, if_pos hap]
      · simp only [lookupQty, if_neg hap]
        exact ih

/-- Updates that never mention p do not change what is stored for p. -/
theorem lookupQty_applyUpdates (ups : List DesiredItem) (cart : List (String × Int))
    (p : String) (hp : ∀ u ∈ ups, u.productId ≠ p) :
    lookupQty (applyUpdates cart ups) p = lookupQty cart p := by
  induction ups generalizing cart with
  | nil => rfl
  | cons u rest ih =>
    rw [applyUpdates, List.foldl_cons]
    have h1 : lookupQty (applyUpdates (applyUpdateOne cart u) rest) p =
        lookupQty (applyUpdateOne cart u) p :=
      ih (applyUpdateOne cart u) (fun x hx => hp x (by simp [hx]))
    rw [applyUpdates] at h1
    rw [h1, lookupQty_applyUpdateOne cart u p (hp u (by simp))]

/-- Creates that never mention p do not change what is stored for p. -/
theorem lookupQty_applyCreates (cart : List (String × Int)) (crs : List DesiredItem)
    (p : String) (hp : ∀ c ∈ crs, c.productId ≠ p) :
    lookupQty (applyCreates cart crs) p = lookupQty cart p := by
  induction cart with
  | nil =>
    rw [applyCreates, List.nil_append]
    induction crs with
    | nil => rfl
    | cons c rest ih =>
      have hc : ¬ c.productId = p := hp c (by simp)
      simp only [List.map_cons, lookupQty, if_neg hc]
      exact ih fun x hx => hp x (by simp [hx])
  | cons e rest ih =>
    obtain ⟨a, b⟩ := e
    by_cases ha : a = p
    · simp [applyCreates, lookupQty, ha]
    · simp only [applyCreates, List.cons_append, lookupQty, if_neg ha] at ih ⊢
      exact ih

/-- C8: a productId present in the current cart but absent from the desired list
is untouched by reconciliation: it appears in none of the creates, updates or
deletes batches, and applying the three batches leaves its stored quantity
unchanged. -/
theorem reconcile_leaves_unmentioned_products_untouched (D : List DesiredItem)
    (current : List (String × Int)) (p : String) (q : Int)
    (hD : p ∉ D.map (fun it => it.productId)) (hcur : lookupQty current p = some q) :
    (∀ it ∈ (getActionArrays D current).creates, it.productId ≠ p)
    ∧ (∀ it ∈ (getActionArrays D current).updates, it.productId ≠ p)
    ∧ p ∉ (getActionArrays D current).deletes
    ∧ lookupQty (applyActions current (getActionArrays D current)) p = some q := by
  have hac : ∀ it ∈ (getActionArrays D current).creates, it.productId ≠ p := by
    intro it hmem hcontra
    rw [getActionArrays_eq] at hmem
    exact hD (List.mem_map.mpr ⟨it, (List.mem_filter.mp hmem).1, hcontra⟩)
  have hau : ∀ it ∈ (getActionArrays D current).updates, it.productId ≠ p := by
    intro it hmem hcontra
    rw [getActionArrays_eq] at hmem
    exact hD (List.mem_map.mpr ⟨it, (List.mem_filter.mp hmem).1, hcontra⟩)
  have had : p ∉ (getActionArrays D current).deletes := by
    intro hmem
    rw [getActionArrays_eq] at hmem
    obtain ⟨d, hd, hpid⟩ := List.mem_map.mp hmem
    exact hD (List.mem_map.mpr ⟨d, (List.mem_filter.mp hd).1, hpid⟩)
  refine ⟨hac, hau, had, ?_⟩
  rw [applyActions, lookupQty_applyCreates _ _ _ hac,
    lookupQty_applyUpdates _ _ _ hau, lookupQty_applyDeletes _ _ _ had, hcur]

/-- Witness for C8 at the spec example: product B, present with quantity 1 and
unmentioned by the desired list, still stores quantity 1 after the batches. -/
theorem reconcile_leaves_unmentioned_products_untouched_witness :
    lookupQty (applyActions [("A", 2), ("B", 1)]
        (getActionArrays [DesiredItem.mk "A" 0, DesiredItem.mk "C" 3] [("A", 2), ("B", 1)]))
      "B" = some 1 :=
  (reconcile_leaves_unmentioned_products_untouched
    [DesiredItem.mk "A" 0, DesiredItem.mk "C" 3] [("A", 2), ("B", 1)] "B" 1
    (by decide) (by decide)).2.2.2

end TasteTrove
